import Mathlib

/-!
Verification of the ssl_slave TLS relay (src/src/filecopy.c, ssl_slave half).

The development shallowly embeds the relay's data model and event handlers:

* the startup sequence of main (configuration read and TLS init),
* the connection registry (the doubly linked connections list),
* the byte relay (pipe_cb) over bufferevent read/write queues,
* a per-connection trace model of the libevent callbacks
  (new_ssl_conn_cb, ssl_connected, address_resolved, local_connected,
  ssl_event_cb, free_conn / delete_conn),
* the parent supervision polling path (check_parent, close_connections).

Machine values are Nat / Int; strings are Lean strings; fallible or
absent handles are Option. Each definition is translated from the C
source; the few places where the deciding code lives outside the
provided sources (libevent, send_with_creds, ip_convert) are modelled
from the specification and say so in their doc comments.
-/

namespace SslSlave

/-! ## Startup sequence (main, filecopy.c lines 960-1058)

main performs `len = read(0, &cf, sizeof cf)` and treats only `len < 0`
as fatal; then `ssl_init(...)` failure is fatal; otherwise the event
loop is entered, and after an orderly shutdown main returns
EXIT_SUCCESS. -/

/-- Outcome of the startup checks in main. -/
inductive startup_result
  | exit_failure
  | enter_event_loop
deriving DecidableEq, Repr

/-- Embeds the checks of main: `if (len < 0) return EXIT_FAILURE;` then
`if (!ssl_init(...)) exit(EXIT_FAILURE);` else the event loop starts.
`len` is the return value of `read(0, &cf, sizeof cf)`. -/
def startup_check (len : Int) (ssl_init_ok : Bool) : startup_result :=
  if len < 0 then .exit_failure
  else if ssl_init_ok = false then .exit_failure
  else .enter_event_loop

/-- main returns EXIT_SUCCESS (0) after the event loop exits. -/
def orderly_shutdown_status : Nat := 0

/-- Modelled from the spec: the spec requires the startup read to
deliver exactly `sizeof(struct ssl_slave_config)` bytes
("Failure to read exactly that many bytes is fatal"); `cfg_size` stands
for that size (the struct layout is not in the provided sources). -/
def spec_startup_read_ok (len : Int) (cfg_size : Nat) : Bool :=
  len == (cfg_size : Int)

/-! ## Connection registry (connections list; delete_conn lines 542-563,
registration in new_ssl_conn_cb lines 846-851)

The intrusive doubly linked list is modelled as a Lean list of
connection identifiers, head first, matching traversal order.
`delete_conn` scans from the head, unlinks the first match, frees it
and stops; the second component of the result is the list of
connections freed by the call. -/

/-- new_ssl_conn_cb links a fresh connection at the head of the
`connections` list. -/
def register (connections : List Nat) (c : Nat) : List Nat :=
  c :: connections

/-- delete_conn: walk the list; on the first node equal to `c`, unlink
it, free it (recorded in the second component) and break. A connection
not present leaves the list unchanged and frees nothing. -/
def delete_conn : List Nat → Nat → List Nat × List Nat
  | [], _ => ([], [])
  | x :: xs, c =>
    if x = c then (xs, [c])
    else
      let r := delete_conn xs c
      (x :: r.1, r.2)

/-! ## Byte relay (pipe_cb, filecopy.c lines 602-632)

pipe_cb reads at most `BUFFER_LEN` bytes from the triggering
bufferevent into a stack buffer and, when the opposite bufferevent is
present and at least one byte was read, writes exactly those bytes to
it. The buffer size is kept abstract (`B`); its concrete value comes
from a header that is not among the provided sources. Bufferevent
input buffers are byte queues; `bufferevent_read` drains up to `B`
bytes from the front, `bufferevent_write` appends. -/

/-- The readable queues and the written byte streams of a connection's
two transports, during the ESTABLISHED state. `local_present` /
`remote_present` model whether `c->local_bev` / `c->remote_bev` are
non-NULL. -/
structure relay_state where
  local_in : List Nat
  remote_in : List Nat
  local_out : List Nat
  remote_out : List Nat
  local_present : Bool
  remote_present : Bool
deriving DecidableEq, Repr

/-- Which bufferevent the read event fired on (pipe_cb's `from_bev`). -/
inductive side
  | fromLocal
  | fromRemote
deriving DecidableEq, Repr

/-- pipe_cb: pick `to_bev` as the opposite bufferevent, read up to `B`
bytes from `from_bev`, and if `to_bev` is non-NULL and the read was
non-empty, write the bytes read, unchanged, to `to_bev`. A missing
destination or empty read writes nothing and is not an error: the
bytes drained from `from_bev` are dropped. -/
def pipe_cb (B : Nat) (s : relay_state) : side → relay_state
  | .fromLocal =>
    let buff := s.local_in.take B
    let s1 := { s with local_in := s.local_in.drop B }
    if s1.remote_present = true ∧ buff.length ≠ 0 then
      { s1 with remote_out := s1.remote_out ++ buff }
    else s1
  | .fromRemote =>
    let buff := s.remote_in.take B
    let s1 := { s with remote_in := s.remote_in.drop B }
    if s1.local_present = true ∧ buff.length ≠ 0 then
      { s1 with local_out := s1.local_out ++ buff }
    else s1

/-- `n` successive read events on the same side (successive event-loop
iterations while the peer keeps the data flowing). -/
def relay_iter (B : Nat) (sd : side) : Nat → relay_state → relay_state
  | 0, s => s
  | n + 1, s => relay_iter B sd n (pipe_cb B s sd)

/-! ## Per-connection trace model

The libevent callbacks of ssl_slave are embedded as pure functions on a
connection record, and the event loop as a fold of a step function over
a list of events. Each event's `enabled` guard encodes when libevent
can deliver it (an event source exists and, for one-shot events such as
connect completion and resolver completion, it has not fired before);
a disabled event leaves the connection unchanged. Ghost fields
(`accepted`, `freed`, `pipe_set`, the `_fired` and `ever_` flags and
the write log `local_wlog`/`remote_wlog`) record history for the
statements and are not part of struct conn in the C source; every other
field is. -/

/-- enum conn_state (filecopy.c lines 483-489). -/
inductive conn_state
  | C_SSL_CONNECTING
  | C_HOSTNAME_LOOKUP
  | C_LOCAL_CONNECTING
  | C_ESTABLISHED
  | C_SHUTTINGDOWN
deriving DecidableEq, Repr

open conn_state

/-- Address family of the accepted remote socket
(`c->remote_addr.addr.sa_family`). -/
inductive addr_family
  | af_inet
  | af_inet6
  | af_other (fam : Int)
deriving DecidableEq, Repr

/-- The event-relevant flags of a bufferevent: which directions are
enabled, whether a finishing write flush was requested, and whether
read/write timeouts are armed. -/
structure transport where
  read_enabled : Bool
  write_enabled : Bool
  flushed : Bool
  timeouts_set : Bool
deriving DecidableEq, Repr

/-- A freshly created bufferevent: nothing enabled, no flush, no
timeouts. -/
def transport.fresh : transport :=
  { read_enabled := false, write_enabled := false, flushed := false,
    timeouts_set := false }

/-- An item written to a transport: the one metadata line sent by
local_connected, or a chunk of relayed payload from pipe_cb. -/
inductive witem
  | hostid (line : String)
  | payload (bytes : List Nat)
deriving DecidableEq, Repr

/-- Whether a written item is the metadata line. -/
def is_hostid : witem → Bool
  | .hostid _ => true
  | .payload _ => false

/-- The metadata line built by local_connected:
`snprintf(hostid, len + 1, "%s^%s\r\n", c->remote_ip, c->remote_host)`. -/
def hostid_line (ip host : String) : String :=
  ip ++ "^" ++ host ++ "\r\n"

/-- struct conn (filecopy.c lines 491-503) together with the ghost
history fields described above. `remote_addr_str` is the numeric
presentation of `remote_addr` (what `ip_convert` returns for it);
`resolver_req` is whether `c->resolver_req` is non-NULL. -/
structure conn where
  state : conn_state
  remote_addrfam : addr_family
  remote_addr_str : String
  remote_host : Option String
  remote_ip : Option String
  local_bev : Option transport
  remote_bev : Option transport
  resolver_req : Bool
  accepted : Bool
  freed : Bool
  pipe_set : Bool
  remote_connected_fired : Bool
  local_connected_fired : Bool
  ever_established : Bool
  ever_local_bev : Bool
  ever_resolver_req : Bool
  local_wlog : List witem
  remote_wlog : List witem
deriving DecidableEq, Repr

/-- alloc_conn: `memset(c, 0, sizeof *c)` — all fields zero, which for
the state enum is C_SSL_CONNECTING. -/
def conn.init : conn :=
  { state := C_SSL_CONNECTING
    remote_addrfam := .af_other 0
    remote_addr_str := ""
    remote_host := none
    remote_ip := none
    local_bev := none
    remote_bev := none
    resolver_req := false
    accepted := false
    freed := false
    pipe_set := false
    remote_connected_fired := false
    local_connected_fired := false
    ever_established := false
    ever_local_bev := false
    ever_resolver_req := false
    local_wlog := []
    remote_wlog := [] }

/-- libevent resolver result codes used by address_resolved
(values from event2/dns.h, which is not among the provided sources;
only their distinctness matters here). -/
def DNS_ERR_NONE : Int := 0

/-- DNS_ERR_CANCEL: the outcome delivered to a callback whose request
was canceled with evdns_cancel_request. -/
def DNS_ERR_CANCEL : Int := 69

/-- DNS_PTR: the record type of a reverse lookup answer. -/
def DNS_PTR : Int := 2

/-- evdns_getnameinfo (filecopy.c lines 570-595): for AF_INET and
AF_INET6 it issues a reverse resolver request and returns its handle;
for any other address family it logs and returns NULL without issuing
a request. The Bool is whether a request handle was returned. -/
def evdns_getnameinfo : addr_family → Bool
  | .af_inet => true
  | .af_inet6 => true
  | .af_other _ => false

/-- address_resolved (filecopy.c lines 671-716). `result`, `ty` and
`addresses` are the resolver callback arguments (`count` is the length
of `addresses`). Clears `resolver_req`; returns at once on
DNS_ERR_CANCEL; otherwise on any failure (error result, NULL address
list, wrong record type, zero count) sets both `remote_host` and
`remote_ip` to the numeric IP string from ip_convert, on success sets
`remote_host` to the first resolved name and `remote_ip` to the
numeric IP string; then enters C_LOCAL_CONNECTING and creates the
local bufferevent with a connect in flight and EV_WRITE enabled. -/
def address_resolved (c : conn) (result ty : Int)
    (addresses : Option (List String)) : conn :=
  let c := { c with resolver_req := false }
  if result = DNS_ERR_CANCEL then c
  else
    let c :=
      if result ≠ DNS_ERR_NONE ∨ addresses = none ∨ ty ≠ DNS_PTR
          ∨ (addresses.getD []).length = 0 then
        { c with remote_host := some c.remote_addr_str
                 remote_ip := some c.remote_addr_str }
      else
        { c with remote_host := some ((addresses.getD []).headD c.remote_addr_str)
                 remote_ip := some c.remote_addr_str }
    { c with state := C_LOCAL_CONNECTING
             local_bev := some { transport.fresh with write_enabled := true } }

/-- free_conn (filecopy.c lines 522-536): frees both bufferevents and
the host strings, and cancels any outstanding resolver request.
Modelled from the spec: evdns_cancel_request makes the resolver invoke
the completion callback with DNS_ERR_CANCEL on the still-live
connection before free_conn returns, and never again afterwards. -/
def free_conn (c : conn) : conn :=
  let c := if c.resolver_req then address_resolved c DNS_ERR_CANCEL DNS_PTR none
           else c
  { c with local_bev := none, remote_bev := none, freed := true }

/-- ssl_connected (filecopy.c lines 719-753): clears the handshake
timeouts on the remote bufferevent, moves to C_HOSTNAME_LOOKUP and
stores the handle returned by evdns_getnameinfo in `resolver_req`. -/
def ssl_connected (c : conn) : conn :=
  let c := { c with
    remote_bev := c.remote_bev.map (fun (t : transport) => { t with timeouts_set := false }) }
  { c with state := C_HOSTNAME_LOOKUP
           resolver_req := evdns_getnameinfo c.remote_addrfam }

/-- The helper with which Option String fields are printed; NULL would
crash strlen, and at the points of use the invariant gives isSome. -/
def strD : Option String → String
  | some s => s
  | none => ""

/-- local_connected (filecopy.c lines 638-665): installs pipe_cb as
read callback on both bufferevents, enables EV_READ|EV_WRITE on both,
enters C_ESTABLISHED, then sends the metadata line
`<remote-ip>^<remote-hostname>\r\n` down the local transport with
send_with_creds. Modelled from the spec: send_with_creds is the local
transport write (not in the provided sources); `send_ok` is whether it
returned non-negative — on failure the connection is deleted. -/
def local_connected (c : conn) (send_ok : Bool) : conn :=
  let c := { c with
    local_bev := c.local_bev.map
      (fun (t : transport) => { t with read_enabled := true, write_enabled := true })
    remote_bev := c.remote_bev.map
      (fun (t : transport) => { t with read_enabled := true, write_enabled := true })
    pipe_set := true
    state := C_ESTABLISHED }
  let line := hostid_line (strD c.remote_ip) (strD c.remote_host)
  let c := { c with local_wlog := c.local_wlog ++ [witem.hostid line] }
  if send_ok then c else free_conn c

/-- pipe_cb in the trace model, triggered by readable data on the
remote bufferevent: the bytes read are written to the local
bufferevent when it is present and the read was non-empty, else
dropped. -/
def pipe_from_remote (c : conn) (bytes : List Nat) : conn :=
  if c.local_bev.isSome = true ∧ bytes.length ≠ 0 then
    { c with local_wlog := c.local_wlog ++ [witem.payload bytes] }
  else c

/-- pipe_cb triggered by readable data on the local bufferevent,
symmetric to pipe_from_remote. -/
def pipe_from_local (c : conn) (bytes : List Nat) : conn :=
  if c.remote_bev.isSome = true ∧ bytes.length ≠ 0 then
    { c with remote_wlog := c.remote_wlog ++ [witem.payload bytes] }
  else c

/-- The BEV_EVENT_TIMEOUT branch of ssl_event_cb (lines 774-794): in
C_SSL_CONNECTING the remote bufferevent is disabled and freed, the
state becomes C_SHUTTINGDOWN, a local bufferevent (if any) has reads
disabled and writes flushed, and the connection is deleted; in every
other state the event is ignored. -/
def timeout_cb (c : conn) : conn :=
  if c.state = C_SSL_CONNECTING then
    let c := { c with remote_bev := none, state := C_SHUTTINGDOWN }
    let c := { c with
      local_bev := c.local_bev.map
        (fun (t : transport) => { t with read_enabled := false, flushed := true }) }
    free_conn c
  else c

/-- The error branch of ssl_event_cb for the local side (lines
796-812): the local bufferevent is disabled and freed, the state
becomes C_SHUTTINGDOWN, the remote bufferevent (if any) has reads
disabled and writes flushed (and SSL_shutdown sent), and the
connection is deleted. -/
def error_local_cb (c : conn) : conn :=
  let c := { c with local_bev := none, state := C_SHUTTINGDOWN }
  let c := { c with
    remote_bev := c.remote_bev.map
      (fun (t : transport) => { t with read_enabled := false, flushed := true }) }
  free_conn c

/-- The error branch of ssl_event_cb for the remote side (lines
813-831), symmetric to error_local_cb. -/
def error_remote_cb (c : conn) : conn :=
  let c := { c with remote_bev := none, state := C_SHUTTINGDOWN }
  let c := { c with
    local_bev := c.local_bev.map
      (fun (t : transport) => { t with read_enabled := false, flushed := true }) }
  free_conn c

/-- How far new_ssl_conn_cb got: accept() failed, the SSL bufferevent
could not be created, or everything succeeded. -/
inductive accept_outcome
  | ok
  | accept_failed
  | bev_failed
deriving DecidableEq, Repr

/-- The handshake timeout set on the remote bufferevent at accept time
(`struct timeval handshake_timeout = {.tv_sec = 60, .tv_usec = 0}`). -/
def handshake_timeout_sec : Nat := 60

/-- new_ssl_conn_cb (filecopy.c lines 836-885): allocates and registers
a connection, sets C_SSL_CONNECTING, accepts the socket (filling the
remote address), and on success creates the remote SSL bufferevent
with both handshake timeouts armed and EV_WRITE enabled; on accept or
bufferevent failure the connection is deleted at once. -/
def new_ssl_conn_cb (c : conn) (fam : addr_family) (addrstr : String)
    (out : accept_outcome) : conn :=
  let c := { c with accepted := true, state := C_SSL_CONNECTING }
  match out with
  | .accept_failed => free_conn c
  | .bev_failed =>
    free_conn { c with remote_addrfam := fam, remote_addr_str := addrstr }
  | .ok =>
    { c with remote_addrfam := fam
             remote_addr_str := addrstr
             remote_bev := some { transport.fresh with
                                    write_enabled := true, timeouts_set := true } }

/-- The events the loop can deliver to one connection. -/
inductive ev
  | accept (fam : addr_family) (addrstr : String) (out : accept_outcome)
  | connected_remote
  | connected_local (send_ok : Bool)
  | resolved (result ty : Int) (addresses : Option (List String))
  | data_remote (bytes : List Nat)
  | data_local (bytes : List Nat)
  | timeout
  | err_local
  | err_remote
deriving DecidableEq, Repr

/-- When libevent can deliver each event: never to a freed connection;
the accept callback runs once; BEV_EVENT_CONNECTED fires at most once
per bufferevent and needs it to exist; the resolver completes only
while a request is outstanding; pipe_cb fires only once installed as
read callback, with the source bufferevent present and readable;
bufferevent events need their bufferevent. -/
def enabled (c : conn) : ev → Bool
  | .accept _ _ _ => !c.freed && !c.accepted
  | .connected_remote => !c.freed && c.remote_bev.isSome && !c.remote_connected_fired
  | .connected_local _ => !c.freed && c.local_bev.isSome && !c.local_connected_fired
  | .resolved _ _ _ => !c.freed && c.resolver_req
  | .data_remote _ => !c.freed && c.pipe_set && c.remote_bev.isSome
      && (c.remote_bev.map transport.read_enabled).getD false
  | .data_local _ => !c.freed && c.pipe_set && c.local_bev.isSome
      && (c.local_bev.map transport.read_enabled).getD false
  | .timeout => !c.freed && (c.remote_bev.isSome || c.local_bev.isSome)
  | .err_local => !c.freed && c.local_bev.isSome
  | .err_remote => !c.freed && c.remote_bev.isSome

/-- The effect of a delivered event: the matching callback, plus the
ghost bookkeeping (`_fired` and `ever_` flags). -/
def apply_ev (c : conn) : ev → conn
  | .accept fam addrstr out => new_ssl_conn_cb c fam addrstr out
  | .connected_remote =>
    let c2 := ssl_connected c
    { c2 with remote_connected_fired := true
              ever_resolver_req := c.ever_resolver_req || c2.resolver_req }
  | .connected_local send_ok =>
    let c2 := local_connected c send_ok
    { c2 with local_connected_fired := true, ever_established := true }
  | .resolved result ty addresses =>
    let c2 := address_resolved c result ty addresses
    { c2 with ever_local_bev := c.ever_local_bev || c2.local_bev.isSome }
  | .data_remote bytes => pipe_from_remote c bytes
  | .data_local bytes => pipe_from_local c bytes
  | .timeout => timeout_cb c
  | .err_local => error_local_cb c
  | .err_remote => error_remote_cb c

/-- One event-loop delivery: a disabled event cannot fire and changes
nothing. -/
def step (c : conn) (e : ev) : conn :=
  if enabled c e then apply_ev c e else c

/-- A whole trace of deliveries. -/
def run (c : conn) (tr : List ev) : conn :=
  tr.foldl step c

/-- The per-connection state sequence a trace visits, first state
included. -/
def run_states (c : conn) : List ev → List conn_state
  | [] => [c.state]
  | e :: es => c.state :: run_states (step c e) es

/-! ## Reachability invariant

`LiveInv` collects the facts that hold of every connection the event
model can produce that has not yet been freed; `Inv` additionally
allows freed connections, which can receive no further events. -/

/-- The invariant of live (not yet freed) connections. -/
structure LiveInv (c : conn) : Prop where
  a1 : c.accepted = false → c.state = C_SSL_CONNECTING ∧ c.remote_bev = none
    ∧ c.local_bev = none ∧ c.resolver_req = false
    ∧ c.remote_connected_fired = false ∧ c.local_connected_fired = false
    ∧ c.pipe_set = false ∧ c.ever_established = false
    ∧ c.ever_local_bev = false ∧ c.ever_resolver_req = false
    ∧ c.local_wlog = []
  a2 : c.remote_connected_fired = false → c.state = C_SSL_CONNECTING
    ∧ c.resolver_req = false ∧ c.local_bev = none
    ∧ c.local_connected_fired = false ∧ c.pipe_set = false
    ∧ c.ever_established = false ∧ c.ever_local_bev = false
    ∧ c.ever_resolver_req = false ∧ c.remote_host = none
    ∧ c.remote_ip = none ∧ c.local_wlog = []
  a3 : c.state = C_SSL_CONNECTING → c.accepted = true →
    ∃ t, c.remote_bev = some t ∧ t.timeouts_set = true
  a4 : c.remote_connected_fired = true → c.state ≠ C_SSL_CONNECTING
  a5 : c.resolver_req = true → c.state = C_HOSTNAME_LOOKUP
    ∧ c.local_bev = none ∧ c.remote_host = none ∧ c.remote_ip = none
    ∧ c.local_connected_fired = false ∧ c.pipe_set = false
    ∧ c.ever_established = false
  a6 : c.state ≠ C_SSL_CONNECTING → ∀ t, c.remote_bev = some t →
    t.timeouts_set = false
  a7 : c.local_bev.isSome = true → c.local_connected_fired = false →
    c.state = C_LOCAL_CONNECTING ∧ c.pipe_set = false
    ∧ c.ever_established = false ∧ c.local_wlog = []
  a8 : c.local_bev.isSome = true → c.remote_host.isSome = true
    ∧ c.remote_ip.isSome = true ∧ c.resolver_req = false
    ∧ c.ever_local_bev = true ∧ c.remote_connected_fired = true
  a9 : c.ever_established = false → c.local_wlog = []
  a10 : c.ever_established = true → c.remote_host.isSome = true
    ∧ c.remote_ip.isSome = true ∧ c.resolver_req = false
    ∧ c.local_connected_fired = true
    ∧ c.local_wlog.head? =
        some (witem.hostid (hostid_line (strD c.remote_ip) (strD c.remote_host)))
    ∧ (c.local_wlog.drop 1).all (fun w => !is_hostid w) = true
  a11 : ∀ n, c.remote_addrfam = addr_family.af_other n →
    c.resolver_req = false ∧ c.ever_resolver_req = false
    ∧ c.ever_local_bev = false ∧ c.local_bev = none
    ∧ c.state ≠ C_LOCAL_CONNECTING ∧ c.state ≠ C_ESTABLISHED
    ∧ c.ever_established = false
  a12 : c.resolver_req = true → c.ever_resolver_req = true
  a14 : c.pipe_set = true → c.ever_established = true
    ∧ c.local_connected_fired = true

/-- Every reachable connection is freed or satisfies the live
invariant. -/
def Inv (c : conn) : Prop := c.freed = true ∨ LiveInv c

/-! ## The state chain (claim C3 machinery) -/

/-- Position of each state along the success chain. -/
def rank : conn_state → Nat
  | C_SSL_CONNECTING => 0
  | C_HOSTNAME_LOOKUP => 1
  | C_LOCAL_CONNECTING => 2
  | C_ESTABLISHED => 3
  | C_SHUTTINGDOWN => 4

/-- A legal adjacent pair of observed states: unchanged, the next state
of the chain, or a direct jump to C_SHUTTINGDOWN. -/
def ok_step (s1 s2 : conn_state) : Prop :=
  s2 = s1 ∨ rank s2 = rank s1 + 1 ∨ s2 = C_SHUTTINGDOWN

/-! ## The local write log invariant (claim C2 machinery)

Unlike `LiveInv`, these facts survive the freeing of a connection: the
metadata line is the first item of the local write log exactly when the
connection has been through local_connected, and nothing is in the log
before that. -/

/-- Write-log facts holding for every reachable connection, freed or
not. -/
structure WInv (c : conn) : Prop where
  w9 : c.ever_established = false → c.local_wlog = []
  w10 : c.ever_established = true → c.remote_host.isSome = true
    ∧ c.remote_ip.isSome = true
    ∧ c.local_wlog.head? =
        some (witem.hostid (hostid_line (strD c.remote_ip) (strD c.remote_host)))
    ∧ (c.local_wlog.drop 1).all (fun w => !is_hostid w) = true
  w11 : ∀ n, c.remote_addrfam = addr_family.af_other n →
    c.resolver_req = false ∧ c.ever_resolver_req = false
    ∧ c.ever_local_bev = false ∧ c.local_bev = none
    ∧ c.state ≠ C_LOCAL_CONNECTING ∧ c.state ≠ C_ESTABLISHED
    ∧ c.ever_established = false

/-! ## Parent supervision, polling strategy (check_parent, filecopy.c
lines 904-915; close_connections lines 887-902; parent_timeout in
main) -/

/-- The polling interval: `struct timeval parent_timeout = {.tv_sec = 5,
.tv_usec = 0}` in main, re-armed with EV_PERSIST. -/
def parent_timeout_sec : Nat := 5

/-- The body of close_connections' loop for one connection: set
C_SHUTTINGDOWN, disable reads and request a finishing write flush on
the remote bufferevent when present, and the same on the local
bufferevent only when `flush_local` is set. -/
def close_connection_update (flush_local : Bool) (c : conn) : conn :=
  let c := { c with state := C_SHUTTINGDOWN }
  let c := { c with
    remote_bev := c.remote_bev.map
      (fun (t : transport) => { t with read_enabled := false, flushed := true }) }
  if flush_local then
    { c with
      local_bev := c.local_bev.map
        (fun (t : transport) => { t with read_enabled := false, flushed := true }) }
  else c

/-- close_connections: the loop over the whole registry. -/
def close_connections (flush_local : Bool) (cs : List conn) : List conn :=
  cs.map (close_connection_update flush_local)

/-- check_parent: compare getppid() (`ppid_now`) against the parent PID
recorded at startup; on mismatch, call close_connections(0) and break
the event loop (the Bool result; once the loop breaks, main runs its
shutdown sequence and returns). -/
def check_parent (parent_pid ppid_now : Int) (cs : List conn) :
    List conn × Bool :=
  if ppid_now ≠ parent_pid then (close_connections false cs, true)
  else (cs, false)

/-- Sample remote IP for concrete evaluations. -/
def sample_ip : String := "203.0.113.7"

/-- Sample resolved hostname for concrete evaluations. -/
def sample_host : String := "client.example.net"

/-- A trace that accepts a connection and leaves it mid-handshake. -/
def tr_ssl : List ev :=
  [ev.accept addr_family.af_inet sample_ip accept_outcome.ok]

/-- A trace that drives one connection to C_ESTABLISHED. -/
def tr_est : List ev :=
  [ev.accept addr_family.af_inet sample_ip accept_outcome.ok,
   ev.connected_remote,
   ev.resolved DNS_ERR_NONE DNS_PTR (some [sample_host]),
   ev.connected_local true]

/-- A trace that accepts a connection of an unknown address family and
completes its TLS handshake. -/
def tr_other : List ev :=
  [ev.accept (addr_family.af_other 7) sample_ip accept_outcome.ok,
   ev.connected_remote]

/-- A sample relay state with both transports present. -/
def sample_relay : relay_state :=
  { local_in := [], remote_in := [10, 20, 30], local_out := [1],
    remote_out := [], local_present := true, remote_present := true }

/-! ## Theorems -/

theorem delete_conn_not_mem (l : List Nat) (c : Nat) (h : c ∉ l) :
    delete_conn l c = (l, []) := by
  induction l with
  | nil => rfl
  | cons x xs ih =>
    have hx : x ≠ c := fun hxc => h (hxc ▸ List.mem_cons_self x xs)
    have hxs : c ∉ xs := fun hm => h (List.mem_cons_of_mem x hm)
    simp [delete_conn, hx, ih hxs]

theorem delete_conn_sublist (l : List Nat) (c : Nat) :
    (delete_conn l c).1.Sublist l := by
  induction l with
  | nil => simp [delete_conn]
  | cons x xs ih =>
    by_cases hx : x = c
    · simp [delete_conn, hx]
    · simpa [delete_conn, hx] using ih.cons₂ x

theorem delete_conn_count (l : List Nat) (c d : Nat) (hd : d ≠ c) :
    (delete_conn l c).1.count d = l.count d := by
  induction l with
  | nil => rfl
  | cons x xs ih =>
    by_cases hx : x = c
    · subst hx
      simp [delete_conn, List.count_cons, hd]
    · simp [delete_conn, hx, List.count_cons, ih]

theorem pipe_cb_fromRemote_present (B : Nat) (s : relay_state)
    (h : s.local_present = true) :
    (pipe_cb B s .fromRemote).local_out = s.local_out ++ s.remote_in.take B
    ∧ (pipe_cb B s .fromRemote).remote_in = s.remote_in.drop B
    ∧ (pipe_cb B s .fromRemote).local_present = s.local_present
    ∧ (pipe_cb B s .fromRemote).local_in = s.local_in := by
  by_cases hb : (s.remote_in.take B).length ≠ 0
  · simp only [List.length_take, ne_eq, Nat.min_eq_zero_iff, List.length_eq_zero,
      not_or] at hb
    simp [pipe_cb, h, hb.1, hb.2]
  · have hnil : s.remote_in.take B = [] := by
      simpa using of_not_not hb
    simp [pipe_cb, h, hnil]

theorem pipe_cb_fromLocal_present (B : Nat) (s : relay_state)
    (h : s.remote_present = true) :
    (pipe_cb B s .fromLocal).remote_out = s.remote_out ++ s.local_in.take B
    ∧ (pipe_cb B s .fromLocal).local_in = s.local_in.drop B
    ∧ (pipe_cb B s .fromLocal).remote_present = s.remote_present
    ∧ (pipe_cb B s .fromLocal).remote_in = s.remote_in := by
  by_cases hb : (s.local_in.take B).length ≠ 0
  · simp only [List.length_take, ne_eq, Nat.min_eq_zero_iff, List.length_eq_zero,
      not_or] at hb
    simp [pipe_cb, h, hb.1, hb.2]
  · have hnil : s.local_in.take B = [] := by
      simpa using of_not_not hb
    simp [pipe_cb, h, hnil]

theorem relay_iter_fromRemote (B : Nat) (n : Nat) (s : relay_state)
    (h : s.local_present = true) :
    (relay_iter B .fromRemote n s).local_out
      = s.local_out ++ s.remote_in.take (n * B)
    ∧ (relay_iter B .fromRemote n s).remote_in = s.remote_in.drop (n * B) := by
  induction n generalizing s with
  | zero => simp [relay_iter]
  | succ n ih =>
    obtain ⟨h1, h2, h3, _⟩ := pipe_cb_fromRemote_present B s h
    have hp : (pipe_cb B s .fromRemote).local_present = true := by
      rw [h3]; exact h
    obtain ⟨ih1, ih2⟩ := ih (pipe_cb B s .fromRemote) hp
    constructor
    · rw [relay_iter, ih1, h1, h2, List.append_assoc, ← List.take_add]
      have : B + n * B = (n + 1) * B := by ring
      rw [this]
    · rw [relay_iter, ih2, h2, List.drop_drop]
      congr 1
      ring

theorem relay_iter_fromLocal (B : Nat) (n : Nat) (s : relay_state)
    (h : s.remote_present = true) :
    (relay_iter B .fromLocal n s).remote_out
      = s.remote_out ++ s.local_in.take (n * B)
    ∧ (relay_iter B .fromLocal n s).local_in = s.local_in.drop (n * B) := by
  induction n generalizing s with
  | zero => simp [relay_iter]
  | succ n ih =>
    obtain ⟨h1, h2, h3, _⟩ := pipe_cb_fromLocal_present B s h
    have hp : (pipe_cb B s .fromLocal).remote_present = true := by
      rw [h3]; exact h
    obtain ⟨ih1, ih2⟩ := ih (pipe_cb B s .fromLocal) hp
    constructor
    · rw [relay_iter, ih1, h1, h2, List.append_assoc, ← List.take_add]
      have : B + n * B = (n + 1) * B := by ring
      rw [this]
    · rw [relay_iter, ih2, h2, List.drop_drop]
      congr 1
      ring

theorem inv_init : Inv conn.init := by
  right
  constructor <;> simp [conn.init]

theorem enabled_of_freed (c : conn) (e : ev) (h : c.freed = true) :
    enabled c e = false := by
  cases e <;> simp [enabled, h]

theorem step_freed (c : conn) (e : ev) (h : c.freed = true) :
    step c e = c := by
  rw [step, enabled_of_freed c e h]
  simp

theorem run_freed (c : conn) (tr : List ev) (h : c.freed = true) :
    run c tr = c := by
  induction tr with
  | nil => rfl
  | cons e es ih =>
    show run (step c e) es = c
    rw [step_freed c e h, ih]

theorem free_conn_freed (c : conn) : (free_conn c).freed = true := by
  rw [free_conn]

theorem apply_accept_ok (c : conn) (fam : addr_family) (addrstr : String) :
    apply_ev c (.accept fam addrstr .ok) =
    { c with accepted := true, state := C_SSL_CONNECTING,
             remote_addrfam := fam, remote_addr_str := addrstr,
             remote_bev := some { transport.fresh with
                                    write_enabled := true, timeouts_set := true } } := rfl

theorem apply_connected_remote (c : conn) :
    apply_ev c .connected_remote =
    { c with remote_bev := c.remote_bev.map
               (fun (t : transport) => { t with timeouts_set := false }),
             state := C_HOSTNAME_LOOKUP,
             resolver_req := evdns_getnameinfo c.remote_addrfam,
             remote_connected_fired := true,
             ever_resolver_req :=
               c.ever_resolver_req || evdns_getnameinfo c.remote_addrfam } := rfl

theorem apply_resolved_cancel (c : conn) (ty : Int)
    (addresses : Option (List String)) :
    apply_ev c (.resolved DNS_ERR_CANCEL ty addresses) =
    { c with resolver_req := false,
             ever_local_bev := c.ever_local_bev || c.local_bev.isSome } := by
  simp [apply_ev, address_resolved]

theorem apply_data_remote (c : conn) (bytes : List Nat) :
    apply_ev c (.data_remote bytes) =
    if c.local_bev.isSome = true ∧ bytes.length ≠ 0 then
      { c with local_wlog := c.local_wlog ++ [witem.payload bytes] }
    else c := rfl

theorem apply_data_local (c : conn) (bytes : List Nat) :
    apply_ev c (.data_local bytes) =
    if c.remote_bev.isSome = true ∧ bytes.length ≠ 0 then
      { c with remote_wlog := c.remote_wlog ++ [witem.payload bytes] }
    else c := rfl

theorem apply_resolved_noncancel (c : conn) (result ty : Int)
    (addresses : Option (List String)) (h : result ≠ DNS_ERR_CANCEL) :
    apply_ev c (.resolved result ty addresses) =
    { c with resolver_req := false,
             remote_host := some
               (if result ≠ DNS_ERR_NONE ∨ addresses = none ∨ ty ≠ DNS_PTR
                   ∨ (addresses.getD []).length = 0
                then c.remote_addr_str
                else (addresses.getD []).headD c.remote_addr_str),
             remote_ip := some c.remote_addr_str,
             state := C_LOCAL_CONNECTING,
             local_bev := some { transport.fresh with write_enabled := true },
             ever_local_bev := true } := by
  by_cases hcond : ¬result = DNS_ERR_NONE ∨ addresses = none ∨ ¬ty = DNS_PTR
      ∨ addresses.getD [] = []
  · simp only [apply_ev, address_resolved, if_neg h]
    simp [hcond]
  · simp only [apply_ev, address_resolved, if_neg h]
    simp [hcond]

theorem apply_connected_local_ok (c : conn) :
    apply_ev c (.connected_local true) =
    { c with local_bev := c.local_bev.map
               (fun (t : transport) =>
                 { t with read_enabled := true, write_enabled := true }),
             remote_bev := c.remote_bev.map
               (fun (t : transport) =>
                 { t with read_enabled := true, write_enabled := true }),
             pipe_set := true, state := C_ESTABLISHED,
             local_wlog := c.local_wlog
               ++ [witem.hostid (hostid_line (strD c.remote_ip) (strD c.remote_host))],
             local_connected_fired := true, ever_established := true } := rfl

theorem accepted_of_remote_bev (c : conn) (hl : LiveInv c)
    (h : c.remote_bev.isSome = true) : c.accepted = true := by
  cases hac : c.accepted
  · rw [(hl.a1 hac).2.1] at h
    simp at h
  · rfl

theorem accepted_of_local_bev (c : conn) (hl : LiveInv c)
    (h : c.local_bev.isSome = true) : c.accepted = true := by
  cases hac : c.accepted
  · rw [(hl.a1 hac).2.2.1] at h
    simp at h
  · rfl

theorem accepted_of_pipe_set (c : conn) (hl : LiveInv c)
    (h : c.pipe_set = true) : c.accepted = true := by
  cases hac : c.accepted
  · rw [(hl.a1 hac).2.2.2.2.2.2.1] at h
    simp at h
  · rfl

theorem fired_of_resolver (c : conn) (hl : LiveInv c)
    (h : c.resolver_req = true) : c.remote_connected_fired = true := by
  cases hfr : c.remote_connected_fired
  · rw [(hl.a2 hfr).2.1] at h
    simp at h
  · rfl

theorem accepted_of_resolver (c : conn) (hl : LiveInv c)
    (h : c.resolver_req = true) : c.accepted = true := by
  cases hac : c.accepted
  · rw [(hl.a1 hac).2.2.2.1] at h
    simp at h
  · rfl

theorem fired_of_pipe_set (c : conn) (hl : LiveInv c)
    (h : c.pipe_set = true) : c.remote_connected_fired = true := by
  cases hfr : c.remote_connected_fired
  · rw [(hl.a2 hfr).2.2.2.2.1] at h
    simp at h
  · rfl

/-- Every event delivery preserves the invariant. -/
theorem inv_step (c : conn) (e : ev) (h : Inv c) : Inv (step c e) := by
  rcases h with hf | hl
  · rw [step_freed c e hf]
    exact Or.inl hf
  · by_cases hen : enabled c e = true
    · rw [step, if_pos hen]
      cases e with
      | accept fam addrstr out =>
        simp only [enabled, Bool.and_eq_true, Bool.not_eq_true'] at hen
        obtain ⟨hnf, hna⟩ := hen
        obtain ⟨hst, hrb, hlb, hres, hrf, hlf, hps, hee, helb, herq, hwl⟩ :=
          hl.a1 hna
        obtain ⟨-, -, -, -, -, -, -, -, hh, hi, -⟩ := hl.a2 hrf
        cases out with
        | accept_failed => exact Or.inl (free_conn_freed _)
        | bev_failed => exact Or.inl (free_conn_freed _)
        | ok =>
          right
          rw [apply_accept_ok]
          refine { a1 := ?_, a2 := ?_, a3 := ?_, a4 := ?_, a5 := ?_, a6 := ?_,
                   a7 := ?_, a8 := ?_, a9 := ?_, a10 := ?_, a11 := ?_,
                   a12 := ?_, a14 := ?_ }
          · simp
          · intro _
            simp [hres, hlb, hlf, hps, hee, helb, herq, hh, hi, hwl]
          · intro _ _
            exact ⟨_, rfl, rfl⟩
          · simp [hrf]
          · simp [hres]
          · simp
          · simp [hlb]
          · simp [hlb]
          · simp [hwl]
          · simp [hee]
          · intro n _
            simp [hres, herq, helb, hlb, hee]
          · simp [hres]
          · simp [hps]
      | connected_remote =>
        simp only [enabled, Bool.and_eq_true, Bool.not_eq_true'] at hen
        obtain ⟨⟨hnf, hrbs⟩, hnfired⟩ := hen
        obtain ⟨hst, hres, hlb, hlf, hps, hee, helb, herq, hh, hi, hwl⟩ :=
          hl.a2 hnfired
        have hacc := accepted_of_remote_bev c hl hrbs
        right
        rw [apply_connected_remote]
        refine { a1 := ?_, a2 := ?_, a3 := ?_, a4 := ?_, a5 := ?_, a6 := ?_,
                 a7 := ?_, a8 := ?_, a9 := ?_, a10 := ?_, a11 := ?_,
                 a12 := ?_, a14 := ?_ }
        · simp [hacc]
        · simp
        · simp
        · simp
        · intro _
          simp [hlb, hh, hi, hlf, hps, hee]
        · intro _ t ht
          simp only [Option.map_eq_some'] at ht
          obtain ⟨t0, -, hft⟩ := ht
          rw [← hft]
        · simp [hlb]
        · simp [hlb]
        · simp [hwl]
        · simp [hee]
        · intro n hfam
          simp only at hfam
          simp [hfam, evdns_getnameinfo, herq, helb, hlb, hee]
        · intro h12
          simp only at h12
          simp [h12]
        · simp [hps]
      | connected_local send_ok =>
        simp only [enabled, Bool.and_eq_true, Bool.not_eq_true'] at hen
        obtain ⟨⟨hnf, hlbs⟩, hnlf⟩ := hen
        obtain ⟨hst, hps, hee, hwl⟩ := hl.a7 hlbs hnlf
        obtain ⟨hhs, his, hres, helb, hfired⟩ := hl.a8 hlbs
        have hacc := accepted_of_local_bev c hl hlbs
        have hnso : c.state ≠ C_SSL_CONNECTING := by rw [hst]; simp
        cases send_ok with
        | false => exact Or.inl rfl
        | true =>
          right
          rw [apply_connected_local_ok]
          refine { a1 := ?_, a2 := ?_, a3 := ?_, a4 := ?_, a5 := ?_, a6 := ?_,
                   a7 := ?_, a8 := ?_, a9 := ?_, a10 := ?_, a11 := ?_,
                   a12 := ?_, a14 := ?_ }
          · simp [hacc]
          · simp [hfired]
          · simp
          · intro _
            simp
          · simp [hres]
          · intro _ t ht
            simp only [Option.map_eq_some'] at ht
            obtain ⟨t0, ht0, hft⟩ := ht
            rw [← hft]
            exact hl.a6 hnso t0 ht0
          · simp
          · intro _
            simp [hhs, his, hres, helb, hfired]
          · simp
          · intro _
            simp [hhs, his, hres, hwl]
          · intro n hfam
            simp only at hfam
            rw [(hl.a11 n hfam).2.2.2.1] at hlbs
            simp at hlbs
          · simp [hres]
          · simp
      | resolved result ty addresses =>
        simp only [enabled, Bool.and_eq_true, Bool.not_eq_true'] at hen
        obtain ⟨hnf, hresv⟩ := hen
        obtain ⟨hst, hlb, hh, hi, hlf, hps, hee⟩ := hl.a5 hresv
        have hfired := fired_of_resolver c hl hresv
        have hacc := accepted_of_resolver c hl hresv
        have hwl := hl.a9 hee
        have hnso : c.state ≠ C_SSL_CONNECTING := by rw [hst]; simp
        by_cases hcan : result = DNS_ERR_CANCEL
        · subst hcan
          right
          rw [apply_resolved_cancel]
          refine { a1 := ?_, a2 := ?_, a3 := ?_, a4 := ?_, a5 := ?_, a6 := ?_,
                   a7 := ?_, a8 := ?_, a9 := ?_, a10 := ?_, a11 := ?_,
                   a12 := ?_, a14 := ?_ }
          · simp [hacc]
          · simp [hfired]
          · simp [hst]
          · intro _
            simp [hst]
          · simp
          · intro _ t ht
            exact hl.a6 hnso t ht
          · simp [hlb]
          · simp [hlb]
          · simp [hwl]
          · simp [hee]
          · intro n hfam
            simp only at hfam
            rw [(hl.a11 n hfam).1] at hresv
            simp at hresv
          · simp
          · simp [hps]
        · right
          rw [apply_resolved_noncancel c result ty addresses hcan]
          refine { a1 := ?_, a2 := ?_, a3 := ?_, a4 := ?_, a5 := ?_, a6 := ?_,
                   a7 := ?_, a8 := ?_, a9 := ?_, a10 := ?_, a11 := ?_,
                   a12 := ?_, a14 := ?_ }
          · simp [hacc]
          · simp [hfired]
          · simp
          · intro _
            simp
          · simp
          · intro _ t ht
            exact hl.a6 hnso t ht
          · intro _ _
            simp [hps, hee, hwl]
          · intro _
            simp [hfired]
          · simp [hwl]
          · simp [hee]
          · intro n hfam
            simp only at hfam
            rw [(hl.a11 n hfam).1] at hresv
            simp at hresv
          · simp
          · simp [hps]
      | data_remote bytes =>
        simp only [enabled, Bool.and_eq_true, Bool.not_eq_true'] at hen
        obtain ⟨⟨⟨hnf, hps⟩, hrbs⟩, hre⟩ := hen
        obtain ⟨hee, hlf⟩ := hl.a14 hps
        have hacc := accepted_of_pipe_set c hl hps
        have hfired := fired_of_pipe_set c hl hps
        rw [apply_data_remote]
        by_cases hcond : c.local_bev.isSome = true ∧ bytes.length ≠ 0
        · rw [if_pos hcond]
          right
          obtain ⟨hhs, his, hres, hlf10, hhead, hall⟩ := hl.a10 hee
          refine { a1 := ?_, a2 := ?_, a3 := ?_, a4 := ?_, a5 := ?_, a6 := ?_,
                   a7 := ?_, a8 := ?_, a9 := ?_, a10 := ?_, a11 := ?_,
                   a12 := ?_, a14 := ?_ }
          · simp [hacc]
          · simp [hfired]
          · intro h3 h3b
            exact hl.a3 h3 h3b
          · exact hl.a4
          · intro h5
            have h5e := (hl.a5 h5).2.2.2.2.2.2
            rw [hee] at h5e
            simp at h5e
          · exact hl.a6
          · intro _ h7
            simp only at h7
            rw [hlf10] at h7
            simp at h7
          · intro h8
            exact hl.a8 h8
          · intro h9
            simp only at h9
            rw [hee] at h9
            simp at h9
          · intro _
            refine ⟨hhs, his, hres, hlf10, ?_, ?_⟩
            · cases hw : c.local_wlog with
              | nil =>
                rw [hw] at hhead
                simp at hhead
              | cons w ws =>
                rw [hw] at hhead
                simp only [List.head?_cons, Option.some.injEq] at hhead
                simp [hw, hhead]
            · cases hw : c.local_wlog with
              | nil =>
                rw [hw] at hhead
                simp at hhead
              | cons w ws =>
                rw [hw] at hall
                simp only [List.drop_one, List.tail_cons] at hall
                simp only [hw, List.cons_append, List.drop_one, List.tail_cons,
                  List.all_append, hall, Bool.true_and, List.all_cons,
                  List.all_nil, Bool.and_true]
                rfl
          · intro n hfam
            simp only at hfam
            have h11e := (hl.a11 n hfam).2.2.2.2.2.2
            rw [hee] at h11e
            simp at h11e
          · exact hl.a12
          · intro _
            exact ⟨hee, hlf⟩
        · rw [if_neg hcond]
          exact Or.inr hl
      | data_local bytes =>
        rw [apply_data_local]
        by_cases hcond : c.remote_bev.isSome = true ∧ bytes.length ≠ 0
        · rw [if_pos hcond]
          right
          exact { a1 := hl.a1, a2 := hl.a2, a3 := hl.a3, a4 := hl.a4,
                  a5 := hl.a5, a6 := hl.a6, a7 := hl.a7, a8 := hl.a8,
                  a9 := hl.a9, a10 := hl.a10, a11 := hl.a11, a12 := hl.a12,
                  a14 := hl.a14 }
        · rw [if_neg hcond]
          exact Or.inr hl
      | timeout =>
        by_cases hst : c.state = C_SSL_CONNECTING
        · refine Or.inl ?_
          show (timeout_cb c).freed = true
          simp only [timeout_cb, hst, if_true]
          exact free_conn_freed _
        · have heq : apply_ev c .timeout = c := by
            simp [apply_ev, timeout_cb, hst]
          rw [heq]
          exact Or.inr hl
      | err_local => exact Or.inl (free_conn_freed _)
      | err_remote => exact Or.inl (free_conn_freed _)
    · rw [step, if_neg hen]
      exact Or.inr hl

/-- The invariant holds along every trace from a connection satisfying
it. -/
theorem inv_run_from (c : conn) (tr : List ev) (h : Inv c) : Inv (run c tr) := by
  induction tr generalizing c with
  | nil => exact h
  | cons e es ih => exact ih (step c e) (inv_step c e h)

/-- The invariant holds of every reachable connection. -/
theorem inv_run (tr : List ev) : Inv (run conn.init tr) :=
  inv_run_from conn.init tr inv_init

theorem free_conn_eq (c : conn) :
    free_conn c = { c with resolver_req := false, local_bev := none,
                           remote_bev := none, freed := true } := by
  cases hr : c.resolver_req
  · simp [free_conn, hr]
  · simp [free_conn, hr, address_resolved]

theorem timeout_cb_ssl (c : conn) (hst : c.state = C_SSL_CONNECTING) :
    timeout_cb c = { c with local_bev := none, remote_bev := none,
                            resolver_req := false, state := C_SHUTTINGDOWN,
                            freed := true } := by
  simp only [timeout_cb, hst, if_true, free_conn_eq]

theorem timeout_cb_other (c : conn) (hst : c.state ≠ C_SSL_CONNECTING) :
    timeout_cb c = c := by
  simp only [timeout_cb, if_neg hst]

theorem error_local_cb_eq (c : conn) :
    error_local_cb c = { c with local_bev := none, remote_bev := none,
                                resolver_req := false, state := C_SHUTTINGDOWN,
                                freed := true } := by
  simp only [error_local_cb, free_conn_eq]

theorem error_remote_cb_eq (c : conn) :
    error_remote_cb c = { c with local_bev := none, remote_bev := none,
                                 resolver_req := false, state := C_SHUTTINGDOWN,
                                 freed := true } := by
  simp only [error_remote_cb, free_conn_eq]

theorem apply_connected_local_fail (c : conn) :
    apply_ev c (.connected_local false) =
    { c with local_bev := none, remote_bev := none, resolver_req := false,
             freed := true, pipe_set := true, state := C_ESTABLISHED,
             local_wlog := c.local_wlog
               ++ [witem.hostid (hostid_line (strD c.remote_ip) (strD c.remote_host))],
             local_connected_fired := true, ever_established := true } := by
  show ({ local_connected c false with
            local_connected_fired := true, ever_established := true } : conn) = _
  rw [show local_connected c false
        = free_conn { c with
            local_bev := c.local_bev.map
              (fun (t : transport) =>
                { t with read_enabled := true, write_enabled := true }),
            remote_bev := c.remote_bev.map
              (fun (t : transport) =>
                { t with read_enabled := true, write_enabled := true }),
            pipe_set := true, state := C_ESTABLISHED,
            local_wlog := c.local_wlog
              ++ [witem.hostid (hostid_line (strD c.remote_ip) (strD c.remote_host))] }
      from rfl]
  rw [free_conn_eq]

theorem step_ok (c : conn) (e : ev) (h : Inv c) :
    ok_step c.state (step c e).state := by
  rcases h with hf | hl
  · rw [step_freed c e hf]
    exact Or.inl rfl
  · by_cases hen : enabled c e = true
    · rw [step, if_pos hen]
      cases e with
      | accept fam addrstr out =>
        simp only [enabled, Bool.and_eq_true, Bool.not_eq_true'] at hen
        obtain ⟨hnf, hna⟩ := hen
        have hst := (hl.a1 hna).1
        cases out with
        | ok =>
          rw [apply_accept_ok]
          exact Or.inl hst.symm
        | accept_failed =>
          left
          show (free_conn _).state = c.state
          rw [free_conn_eq]
          simp [hst]
        | bev_failed =>
          left
          show (free_conn _).state = c.state
          rw [free_conn_eq]
          simp [hst]
      | connected_remote =>
        simp only [enabled, Bool.and_eq_true, Bool.not_eq_true'] at hen
        obtain ⟨⟨hnf, hrbs⟩, hnfired⟩ := hen
        have hst := (hl.a2 hnfired).1
        rw [apply_connected_remote]
        right; left
        rw [hst]
        rfl
      | connected_local send_ok =>
        simp only [enabled, Bool.and_eq_true, Bool.not_eq_true'] at hen
        obtain ⟨⟨hnf, hlbs⟩, hnlf⟩ := hen
        have hst := (hl.a7 hlbs hnlf).1
        cases send_ok with
        | true =>
          rw [apply_connected_local_ok]
          right; left
          rw [hst]
          rfl
        | false =>
          rw [apply_connected_local_fail]
          right; left
          rw [hst]
          rfl
      | resolved result ty addresses =>
        simp only [enabled, Bool.and_eq_true, Bool.not_eq_true'] at hen
        obtain ⟨hnf, hresv⟩ := hen
        have hst := (hl.a5 hresv).1
        by_cases hcan : result = DNS_ERR_CANCEL
        · subst hcan
          rw [apply_resolved_cancel]
          exact Or.inl rfl
        · rw [apply_resolved_noncancel c result ty addresses hcan]
          right; left
          rw [hst]
          rfl
      | data_remote bytes =>
        left
        rw [apply_data_remote]
        split <;> rfl
      | data_local bytes =>
        left
        rw [apply_data_local]
        split <;> rfl
      | timeout =>
        by_cases hst : c.state = C_SSL_CONNECTING
        · show ok_step c.state (timeout_cb c).state
          rw [timeout_cb_ssl c hst]
          right; right
          rfl
        · show ok_step c.state (timeout_cb c).state
          rw [timeout_cb_other c hst]
          exact Or.inl rfl
      | err_local =>
        show ok_step c.state (error_local_cb c).state
        rw [error_local_cb_eq]
        right; right
        rfl
      | err_remote =>
        show ok_step c.state (error_remote_cb c).state
        rw [error_remote_cb_eq]
        right; right
        rfl
    · rw [step, if_neg hen]
      exact Or.inl rfl

theorem run_states_head (c : conn) (tr : List ev) :
    (run_states c tr).head? = some c.state := by
  cases tr <;> rfl

theorem chain_run_states (c : conn) (tr : List ev) (h : Inv c) :
    List.Chain' ok_step (run_states c tr) := by
  induction tr generalizing c with
  | nil => simp [run_states]
  | cons e es ih =>
    rw [run_states, List.chain'_cons']
    refine ⟨?_, ih (step c e) (inv_step c e h)⟩
    intro b hb
    rw [run_states_head] at hb
    rw [Option.mem_some_iff] at hb
    rw [← hb]
    exact step_ok c e h

theorem ok_step_rank_le (s1 s2 : conn_state) (h : ok_step s1 s2) :
    rank s1 ≤ rank s2 := by
  rcases h with h | h | h
  · rw [h]
  · rw [h]
    exact Nat.le_succ _
  · rw [h]
    cases s1 <;> simp [rank]

theorem winv_init : WInv conn.init := by
  constructor <;> simp [conn.init]

theorem winv_step (c : conn) (e : ev) (h : Inv c) (hw : WInv c) :
    WInv (step c e) := by
  rcases h with hf | hl
  · rw [step_freed c e hf]
    exact hw
  · by_cases hen : enabled c e = true
    · rw [step, if_pos hen]
      cases e with
      | accept fam addrstr out =>
        simp only [enabled, Bool.and_eq_true, Bool.not_eq_true'] at hen
        obtain ⟨hnf, hna⟩ := hen
        obtain ⟨-, -, hlb, hres, -, -, -, hee, helb, herq, -⟩ := hl.a1 hna
        cases out with
        | ok =>
          rw [apply_accept_ok]
          refine { w9 := hw.w9, w10 := hw.w10, w11 := ?_ }
          intro n _
          simp [hres, herq, helb, hlb, hee]
        | accept_failed =>
          show WInv (free_conn _)
          rw [free_conn_eq]
          refine { w9 := hw.w9, w10 := hw.w10, w11 := ?_ }
          intro n _
          simp [herq, helb, hee]
        | bev_failed =>
          show WInv (free_conn _)
          rw [free_conn_eq]
          refine { w9 := hw.w9, w10 := hw.w10, w11 := ?_ }
          intro n _
          simp [herq, helb, hee]
      | connected_remote =>
        rw [apply_connected_remote]
        refine { w9 := hw.w9, w10 := hw.w10, w11 := ?_ }
        intro n hfam
        simp only at hfam
        obtain ⟨-, herq2, helb2, hlb2, -, -, hee2⟩ := hw.w11 n hfam
        simp [hfam, evdns_getnameinfo, herq2, helb2, hlb2, hee2]
      | connected_local send_ok =>
        simp only [enabled, Bool.and_eq_true, Bool.not_eq_true'] at hen
        obtain ⟨⟨hnf, hlbs⟩, hnlf⟩ := hen
        obtain ⟨hst, hps, hee, hwl⟩ := hl.a7 hlbs hnlf
        obtain ⟨hhs, his, hres, helb, hfired⟩ := hl.a8 hlbs
        cases send_ok with
        | true =>
          rw [apply_connected_local_ok]
          refine { w9 := ?_, w10 := ?_, w11 := ?_ }
          · simp
          · intro _
            simp [hhs, his, hwl]
          · intro n hfam
            simp only at hfam
            rw [(hw.w11 n hfam).2.2.2.1] at hlbs
            simp at hlbs
        | false =>
          rw [apply_connected_local_fail]
          refine { w9 := ?_, w10 := ?_, w11 := ?_ }
          · simp
          · intro _
            simp [hhs, his, hwl]
          · intro n hfam
            simp only at hfam
            rw [(hw.w11 n hfam).2.2.2.1] at hlbs
            simp at hlbs
      | resolved result ty addresses =>
        simp only [enabled, Bool.and_eq_true, Bool.not_eq_true'] at hen
        obtain ⟨hnf, hresv⟩ := hen
        have hee := (hl.a5 hresv).2.2.2.2.2.2
        by_cases hcan : result = DNS_ERR_CANCEL
        · subst hcan
          rw [apply_resolved_cancel]
          refine { w9 := hw.w9, w10 := hw.w10, w11 := ?_ }
          intro n hfam
          simp only at hfam
          rw [(hw.w11 n hfam).1] at hresv
          simp at hresv
        · rw [apply_resolved_noncancel c result ty addresses hcan]
          refine { w9 := ?_, w10 := ?_, w11 := ?_ }
          · intro _
            exact hw.w9 hee
          · intro h10
            simp only at h10
            rw [hee] at h10
            simp at h10
          · intro n hfam
            simp only at hfam
            rw [(hw.w11 n hfam).1] at hresv
            simp at hresv
      | data_remote bytes =>
        simp only [enabled, Bool.and_eq_true, Bool.not_eq_true'] at hen
        obtain ⟨⟨⟨hnf, hps⟩, hrbs⟩, hre⟩ := hen
        obtain ⟨hee, hlf⟩ := hl.a14 hps
        rw [apply_data_remote]
        by_cases hcond : c.local_bev.isSome = true ∧ bytes.length ≠ 0
        · rw [if_pos hcond]
          obtain ⟨hhs, his, hhead, hall⟩ := hw.w10 hee
          refine { w9 := ?_, w10 := ?_, w11 := hw.w11 }
          · intro h9
            simp only at h9
            rw [hee] at h9
            simp at h9
          · intro _
            refine ⟨hhs, his, ?_, ?_⟩
            · cases hwc : c.local_wlog with
              | nil =>
                rw [hwc] at hhead
                simp at hhead
              | cons w ws =>
                rw [hwc] at hhead
                simp only [List.head?_cons, Option.some.injEq] at hhead
                simp [hwc, hhead]
            · cases hwc : c.local_wlog with
              | nil =>
                rw [hwc] at hhead
                simp at hhead
              | cons w ws =>
                rw [hwc] at hall
                simp only [List.drop_one, List.tail_cons] at hall
                simp only [hwc, List.cons_append, List.drop_one, List.tail_cons,
                  List.all_append, hall, Bool.true_and, List.all_cons,
                  List.all_nil, Bool.and_true]
                rfl
        · rw [if_neg hcond]
          exact hw
      | data_local bytes =>
        rw [apply_data_local]
        by_cases hcond : c.remote_bev.isSome = true ∧ bytes.length ≠ 0
        · rw [if_pos hcond]
          exact ⟨hw.w9, hw.w10, hw.w11⟩
        · rw [if_neg hcond]
          exact hw
      | timeout =>
        by_cases hst : c.state = C_SSL_CONNECTING
        · show WInv (timeout_cb c)
          rw [timeout_cb_ssl c hst]
          refine { w9 := hw.w9, w10 := hw.w10, w11 := ?_ }
          intro n hfam
          simp only at hfam
          obtain ⟨-, herq2, helb2, -, -, -, hee2⟩ := hw.w11 n hfam
          simp [herq2, helb2, hee2]
        · show WInv (timeout_cb c)
          rw [timeout_cb_other c hst]
          exact hw
      | err_local =>
        show WInv (error_local_cb c)
        rw [error_local_cb_eq]
        refine { w9 := hw.w9, w10 := hw.w10, w11 := ?_ }
        intro n hfam
        simp only at hfam
        obtain ⟨-, herq2, helb2, -, -, -, hee2⟩ := hw.w11 n hfam
        simp [herq2, helb2, hee2]
      | err_remote =>
        show WInv (error_remote_cb c)
        rw [error_remote_cb_eq]
        refine { w9 := hw.w9, w10 := hw.w10, w11 := ?_ }
        intro n hfam
        simp only at hfam
        obtain ⟨-, herq2, helb2, -, -, -, hee2⟩ := hw.w11 n hfam
        simp [herq2, helb2, hee2]
    · rw [step, if_neg hen]
      exact hw

theorem winv_run (tr : List ev) : WInv (run conn.init tr) := by
  have hgen : ∀ (c : conn), Inv c → WInv c → WInv (run c tr) := by
    induction tr with
    | nil => exact fun c _ hw => hw
    | cons e es ih =>
      intro c h hw
      exact ih (step c e) (inv_step c e h) (winv_step c e h hw)
  exact hgen conn.init inv_init winv_init

theorem pipe_cb_fromRemote_absent (B : Nat) (s : relay_state)
    (h : s.local_present = false) :
    (pipe_cb B s .fromRemote).local_out = s.local_out
    ∧ (pipe_cb B s .fromRemote).remote_in = s.remote_in.drop B := by
  simp [pipe_cb, h]

theorem address_resolved_noncancel_eq (c : conn) (result ty : Int)
    (addrs : Option (List String)) (h : result ≠ DNS_ERR_CANCEL) :
    address_resolved c result ty addrs =
    { c with resolver_req := false,
             remote_host := some
               (if result ≠ DNS_ERR_NONE ∨ addrs = none ∨ ty ≠ DNS_PTR
                   ∨ (addrs.getD []).length = 0
                then c.remote_addr_str
                else (addrs.getD []).headD c.remote_addr_str),
             remote_ip := some c.remote_addr_str,
             state := C_LOCAL_CONNECTING,
             local_bev := some { transport.fresh with write_enabled := true } } := by
  by_cases hcond : ¬result = DNS_ERR_NONE ∨ addrs = none ∨ ¬ty = DNS_PTR
      ∨ addrs.getD [] = []
  · simp only [address_resolved, if_neg h]
    simp [hcond]
  · simp only [address_resolved, if_neg h]
    simp [hcond]

/-- C1: the claim (and spec §6) requires that a read of anything other
than exactly sizeof(struct ssl_slave_config) bytes from fd 0 be fatal.
The code in main only checks `len < 0`: a short read — here 0 bytes,
an immediate EOF — passes the check and the process proceeds into the
event loop, diverging from the claim. A read error (negative return)
and an ssl_init failure do exit non-zero, and main returns
EXIT_SUCCESS (0) after orderly shutdown, as claimed. 360 stands for
any positive config-record size. -/
theorem startup_short_read_not_fatal :
    startup_check 0 true = startup_result.enter_event_loop
  ∧ spec_startup_read_ok 0 360 = false
  ∧ startup_check (-1) true = startup_result.exit_failure
  ∧ startup_check 360 false = startup_result.exit_failure
  ∧ orderly_shutdown_status = 0 := by
  refine ⟨by decide, by decide, by decide, by decide, rfl⟩

/-- C2: on every trace, a connection that reached C_ESTABLISHED has as
the very first item written to its local transport the single metadata
line built as `<remote-ip>^<remote-hostname>\r\n` (hostid_line), and
that line occurs exactly once in the whole local write log, hence
before every relayed payload item; a connection that never reached
C_ESTABLISHED has had nothing written to its local transport. The
line is written in local_connected only, by construction of the
model. -/
theorem handshake_line_first_write (tr : List ev) :
    ((run conn.init tr).ever_established = true →
       (run conn.init tr).remote_ip.isSome = true
     ∧ (run conn.init tr).remote_host.isSome = true
     ∧ (run conn.init tr).local_wlog.head? =
         some (witem.hostid (hostid_line (strD (run conn.init tr).remote_ip)
           (strD (run conn.init tr).remote_host)))
     ∧ (run conn.init tr).local_wlog.countP is_hostid = 1)
  ∧ ((run conn.init tr).ever_established = false →
       (run conn.init tr).local_wlog = []) := by
  have hw := winv_run tr
  refine ⟨?_, hw.w9⟩
  intro hee
  obtain ⟨hhs, his, hhead, hall⟩ := hw.w10 hee
  refine ⟨his, hhs, hhead, ?_⟩
  cases hwc : (run conn.init tr).local_wlog with
  | nil =>
    rw [hwc] at hhead
    simp at hhead
  | cons w ws =>
    rw [hwc] at hhead hall
    simp only [List.head?_cons, Option.some.injEq] at hhead
    simp only [List.drop_one, List.tail_cons] at hall
    have hz : ws.countP is_hostid = 0 := by
      rw [List.countP_eq_zero]
      intro a ha
      have hna := List.all_eq_true.mp hall a ha
      simp only [Bool.not_eq_true'] at hna
      simp [hna]
    rw [List.countP_cons, hz, hhead]
    simp [is_hostid]

/-- Witness for C2 at a concrete trace reaching C_ESTABLISHED. -/
theorem handshake_line_first_write_witness :
    (run conn.init tr_est).ever_established = true
  ∧ ((run conn.init tr_est).remote_ip.isSome = true
     ∧ (run conn.init tr_est).remote_host.isSome = true
     ∧ (run conn.init tr_est).local_wlog.head? =
         some (witem.hostid (hostid_line (strD (run conn.init tr_est).remote_ip)
           (strD (run conn.init tr_est).remote_host)))
     ∧ (run conn.init tr_est).local_wlog.countP is_hostid = 1) :=
  ⟨by decide, (handshake_line_first_write tr_est).1 (by decide)⟩

/-- C3: along every trace the successive per-connection states form a
chain in which each observed transition leaves the state unchanged,
advances exactly one step along C_SSL_CONNECTING → C_HOSTNAME_LOOKUP →
C_LOCAL_CONNECTING → C_ESTABLISHED → C_SHUTTINGDOWN, or jumps directly
to C_SHUTTINGDOWN; consequently the chain rank never decreases, so no
earlier state is ever revisited and no state is skipped on the success
path. In the model every transition happens inside `step`, i.e. inside
one of the embedded event callbacks. -/
theorem state_sequence_chain (tr : List ev) :
    List.Chain' ok_step (run_states conn.init tr)
  ∧ List.Chain' (fun s1 s2 => rank s1 ≤ rank s2) (run_states conn.init tr) := by
  have h := chain_run_states conn.init tr inv_init
  exact ⟨h, List.Chain'.imp (fun a b hab => ok_step_rank_le a b hab) h⟩

/-- C4: pipe_cb reads at most one fixed-size buffer (B bytes) per event
from the triggering transport and appends exactly the bytes read,
unchanged and in order, to the opposite transport; when the opposite
transport is absent or zero bytes were read nothing is written and the
read bytes are dropped (not an error state — the model has none); and
repeated events relay a payload of any size completely, without loss
or reordering, in either direction, while both transports remain
present. -/
theorem pipe_relay_faithful (B : Nat) (hB : 0 < B) :
    (∀ s : relay_state,
        (pipe_cb B s .fromRemote).local_out.length ≤ s.local_out.length + B
      ∧ (pipe_cb B s .fromRemote).remote_in = s.remote_in.drop B)
  ∧ (∀ s : relay_state, s.local_present = true →
        (pipe_cb B s .fromRemote).local_out = s.local_out ++ s.remote_in.take B)
  ∧ (∀ s : relay_state, s.local_present = false →
        (pipe_cb B s .fromRemote).local_out = s.local_out)
  ∧ (∀ s : relay_state, s.remote_in = [] →
        (pipe_cb B s .fromRemote).local_out = s.local_out)
  ∧ (∀ (s : relay_state) (n : Nat), s.local_present = true →
        s.remote_in.length ≤ n * B →
        (relay_iter B .fromRemote n s).local_out = s.local_out ++ s.remote_in)
  ∧ (∀ (s : relay_state) (n : Nat), s.remote_present = true →
        s.local_in.length ≤ n * B →
        (relay_iter B .fromLocal n s).remote_out = s.remote_out ++ s.local_in)
  ∧ (∀ s : relay_state, s.local_present = true →
        (relay_iter B .fromRemote s.remote_in.length s).local_out
          = s.local_out ++ s.remote_in) := by
  refine ⟨?_, ?_, ?_, ?_, ?_, ?_, ?_⟩
  · intro s
    cases hp : s.local_present
    · obtain ⟨h1, h2⟩ := pipe_cb_fromRemote_absent B s hp
      rw [h1, h2]
      exact ⟨Nat.le_add_right _ _, rfl⟩
    · obtain ⟨h1, h2, -, -⟩ := pipe_cb_fromRemote_present B s hp
      refine ⟨?_, h2⟩
      rw [h1, List.length_append, List.length_take]
      omega
  · intro s hp
    exact (pipe_cb_fromRemote_present B s hp).1
  · intro s hp
    exact (pipe_cb_fromRemote_absent B s hp).1
  · intro s hin
    cases hp : s.local_present
    · exact (pipe_cb_fromRemote_absent B s hp).1
    · rw [(pipe_cb_fromRemote_present B s hp).1, hin]
      simp
  · intro s n hp hlen
    rw [(relay_iter_fromRemote B n s hp).1, List.take_of_length_le hlen]
  · intro s n hp hlen
    rw [(relay_iter_fromLocal B n s hp).1, List.take_of_length_le hlen]
  · intro s hp
    have hlen : s.remote_in.length ≤ s.remote_in.length * B :=
      Nat.le_mul_of_pos_right _ hB
    rw [(relay_iter_fromRemote B s.remote_in.length s hp).1,
      List.take_of_length_le hlen]

/-- Witness for C4 at buffer size 8192 and a concrete 3-byte payload. -/
theorem pipe_relay_faithful_witness :
    (0 < 8192 ∧ sample_relay.local_present = true
      ∧ sample_relay.remote_in.length ≤ 1 * 8192)
  ∧ (relay_iter 8192 .fromRemote 1 sample_relay).local_out
      = sample_relay.local_out ++ sample_relay.remote_in :=
  ⟨⟨by decide, by decide, by decide⟩,
   (pipe_relay_faithful 8192 (by decide)).2.2.2.2.1 sample_relay 1
     (by decide) (by decide)⟩

/-- C5: the 60-second handshake timeout is armed on the remote
transport at accept time and stays armed exactly while the connection
is in C_SSL_CONNECTING (ssl_connected clears it); a timeout delivered
in C_SSL_CONNECTING destroys the connection, which at that point has
never had a local transport created nor a resolver request issued; a
timeout delivered in any other state leaves the connection completely
unchanged. -/
theorem handshake_timeout_policy (tr : List ev) :
    handshake_timeout_sec = 60
  ∧ ((run conn.init tr).state ≠ C_SSL_CONNECTING →
       step (run conn.init tr) ev.timeout = run conn.init tr)
  ∧ ((run conn.init tr).freed = false →
       (run conn.init tr).state ≠ C_SSL_CONNECTING →
       ∀ t, (run conn.init tr).remote_bev = some t → t.timeouts_set = false)
  ∧ ((run conn.init tr).freed = false → (run conn.init tr).accepted = true →
       (run conn.init tr).state = C_SSL_CONNECTING →
         (run conn.init tr).local_bev = none
       ∧ (run conn.init tr).resolver_req = false
       ∧ (run conn.init tr).ever_local_bev = false
       ∧ (run conn.init tr).ever_resolver_req = false
       ∧ (∃ t, (run conn.init tr).remote_bev = some t ∧ t.timeouts_set = true)
       ∧ (step (run conn.init tr) ev.timeout).freed = true
       ∧ (step (run conn.init tr) ev.timeout).ever_local_bev = false
       ∧ (step (run conn.init tr) ev.timeout).ever_resolver_req = false) := by
  have h := inv_run tr
  refine ⟨rfl, ?_, ?_, ?_⟩
  · intro hst
    by_cases hen : enabled (run conn.init tr) ev.timeout = true
    · rw [step, if_pos hen]
      exact timeout_cb_other _ hst
    · rw [step, if_neg hen]
  · intro hnf hst t ht
    rcases h with hf | hl
    · rw [hf] at hnf
      exact absurd hnf (by simp)
    · exact hl.a6 hst t ht
  · intro hnf hacc hst
    rcases h with hf | hl
    · rw [hf] at hnf
      exact absurd hnf (by simp)
    · have hnfired : (run conn.init tr).remote_connected_fired = false := by
        cases hfr : (run conn.init tr).remote_connected_fired
        · rfl
        · exact absurd hst (hl.a4 hfr)
      obtain ⟨-, hres, hlb, -, -, -, helb, herq, -, -, -⟩ := hl.a2 hnfired
      obtain ⟨t, ht, htt⟩ := hl.a3 hst hacc
      have hen : enabled (run conn.init tr) ev.timeout = true := by
        simp [enabled, hnf, ht]
      have hstep : step (run conn.init tr) ev.timeout
          = timeout_cb (run conn.init tr) := by
        rw [step, if_pos hen]
        rfl
      rw [hstep, timeout_cb_ssl _ hst]
      exact ⟨hlb, hres, helb, herq, ⟨t, ht, htt⟩, rfl, helb, herq⟩

/-- Witness for C5 at a concrete trace stuck in the handshake. -/
theorem handshake_timeout_policy_witness :
    ((run conn.init tr_ssl).freed = false
      ∧ (run conn.init tr_ssl).accepted = true
      ∧ (run conn.init tr_ssl).state = C_SSL_CONNECTING)
  ∧ ((run conn.init tr_ssl).local_bev = none
     ∧ (run conn.init tr_ssl).resolver_req = false
     ∧ (run conn.init tr_ssl).ever_local_bev = false
     ∧ (run conn.init tr_ssl).ever_resolver_req = false
     ∧ (∃ t, (run conn.init tr_ssl).remote_bev = some t ∧ t.timeouts_set = true)
     ∧ (step (run conn.init tr_ssl) ev.timeout).freed = true
     ∧ (step (run conn.init tr_ssl) ev.timeout).ever_local_bev = false
     ∧ (step (run conn.init tr_ssl) ev.timeout).ever_resolver_req = false) :=
  ⟨⟨by decide, by decide, by decide⟩,
   (handshake_timeout_policy tr_ssl).2.2.2 (by decide) (by decide) (by decide)⟩

/-- C6: canceling an outstanding resolver request during free_conn
makes the resolver deliver DNS_ERR_CANCEL to address_resolved on the
still-live connection, and that delivery only clears the request
field: no state change, no host or IP write, no local-transport
creation, no write-log entry; after free_conn completes, the freed
connection receives no further events of any kind — in particular the
resolved event is permanently disabled, so the completion callback is
never again invoked with that connection. -/
theorem resolver_cancel_quiescent (c : conn) (ty : Int)
    (addresses : Option (List String)) (tr : List ev) :
    address_resolved c DNS_ERR_CANCEL ty addresses
      = { c with resolver_req := false }
  ∧ (free_conn c).freed = true
  ∧ (free_conn c).state = c.state
  ∧ (free_conn c).remote_host = c.remote_host
  ∧ (free_conn c).remote_ip = c.remote_ip
  ∧ (free_conn c).local_wlog = c.local_wlog
  ∧ run (free_conn c) tr = free_conn c
  ∧ (∀ r t2 a, enabled (free_conn c) (ev.resolved r t2 a) = false) := by
  refine ⟨?_, free_conn_freed c, ?_, ?_, ?_, ?_,
    run_freed _ tr (free_conn_freed c), ?_⟩
  · simp [address_resolved]
  · rw [free_conn_eq]
  · rw [free_conn_eq]
  · rw [free_conn_eq]
  · rw [free_conn_eq]
  · intro r t2 a
    simp [enabled, free_conn_freed c]

/-- C7: a non-canceled resolver completion always sets remote_host and
remote_ip: on success remote_host becomes the first resolved name and
remote_ip the numeric IP string; on every failure (error result, NULL
address list, wrong record type, empty address list) both become the
numeric IP string; in both cases the connection moves to
C_LOCAL_CONNECTING with a local connect initiated, so resolver failure
never stops the connection. The fields are set exactly once: while a
request is outstanding they are still unset, and once set, no event
ever changes them again. -/
theorem address_resolved_sets_hosts (c : conn) (result ty : Int)
    (addrs : Option (List String)) (hr : result ≠ DNS_ERR_CANCEL) :
    (address_resolved c result ty addrs).state = C_LOCAL_CONNECTING
  ∧ (address_resolved c result ty addrs).local_bev.isSome = true
  ∧ (address_resolved c result ty addrs).resolver_req = false
  ∧ (∀ h0 hs, addrs = some (h0 :: hs) → result = DNS_ERR_NONE →
       ty = DNS_PTR →
       (address_resolved c result ty addrs).remote_host = some h0
     ∧ (address_resolved c result ty addrs).remote_ip
         = some c.remote_addr_str)
  ∧ ((result ≠ DNS_ERR_NONE ∨ addrs = none ∨ ty ≠ DNS_PTR ∨ addrs = some []) →
       (address_resolved c result ty addrs).remote_host
         = some c.remote_addr_str
     ∧ (address_resolved c result ty addrs).remote_ip
         = some c.remote_addr_str)
  ∧ (∀ tr : List ev, (run conn.init tr).freed = false →
       (run conn.init tr).resolver_req = true →
       (run conn.init tr).remote_host = none
     ∧ (run conn.init tr).remote_ip = none)
  ∧ (∀ (tr : List ev) (hostname ipstr : String) (e : ev),
       (run conn.init tr).remote_host = some hostname →
       (run conn.init tr).remote_ip = some ipstr →
       (step (run conn.init tr) e).remote_host = some hostname
     ∧ (step (run conn.init tr) e).remote_ip = some ipstr) := by
  rw [address_resolved_noncancel_eq c result ty addrs hr]
  refine ⟨rfl, rfl, rfl, ?_, ?_, ?_, ?_⟩
  · intro h0 hs ha hres hty
    subst hres
    subst hty
    simp [ha]
  · intro hfail
    refine ⟨?_, rfl⟩
    rcases hfail with h1 | h1 | h1 | h1 <;> simp [h1]
  · intro tr hnf hresv
    have h := inv_run tr
    rcases h with hf | hl
    · rw [hf] at hnf
      exact absurd hnf (by simp)
    · exact ⟨(hl.a5 hresv).2.2.1, (hl.a5 hresv).2.2.2.1⟩
  · intro tr hostname ipstr e hh hi
    have h := inv_run tr
    rcases h with hf | hl
    · rw [step_freed _ e hf]
      exact ⟨hh, hi⟩
    · by_cases hen : enabled (run conn.init tr) e = true
      · rw [step, if_pos hen]
        cases e with
        | accept fam addrstr out =>
          cases out with
          | ok =>
            rw [apply_accept_ok]
            exact ⟨hh, hi⟩
          | accept_failed =>
            have heq : apply_ev (run conn.init tr)
                (ev.accept fam addrstr accept_outcome.accept_failed)
                = free_conn { run conn.init tr with
                    accepted := true, state := C_SSL_CONNECTING } := rfl
            rw [heq, free_conn_eq]
            exact ⟨hh, hi⟩
          | bev_failed =>
            have heq : apply_ev (run conn.init tr)
                (ev.accept fam addrstr accept_outcome.bev_failed)
                = free_conn { run conn.init tr with
                    accepted := true, state := C_SSL_CONNECTING,
                    remote_addrfam := fam, remote_addr_str := addrstr } := rfl
            rw [heq, free_conn_eq]
            exact ⟨hh, hi⟩
        | connected_remote =>
          rw [apply_connected_remote]
          exact ⟨hh, hi⟩
        | connected_local send_ok =>
          cases send_ok with
          | true =>
            rw [apply_connected_local_ok]
            exact ⟨hh, hi⟩
          | false =>
            rw [apply_connected_local_fail]
            exact ⟨hh, hi⟩
        | resolved result2 ty2 addrs2 =>
          simp only [enabled, Bool.and_eq_true] at hen
          rw [(hl.a5 hen.2).2.2.1] at hh
          exact absurd hh (by simp)
        | data_remote bytes =>
          rw [apply_data_remote]
          split
          · exact ⟨hh, hi⟩
          · exact ⟨hh, hi⟩
        | data_local bytes =>
          rw [apply_data_local]
          split
          · exact ⟨hh, hi⟩
          · exact ⟨hh, hi⟩
        | timeout =>
          by_cases hst : (run conn.init tr).state = C_SSL_CONNECTING
          · have heq : apply_ev (run conn.init tr) ev.timeout
                = timeout_cb (run conn.init tr) := rfl
            rw [heq, timeout_cb_ssl _ hst]
            exact ⟨hh, hi⟩
          · have heq : apply_ev (run conn.init tr) ev.timeout
                = timeout_cb (run conn.init tr) := rfl
            rw [heq, timeout_cb_other _ hst]
            exact ⟨hh, hi⟩
        | err_local =>
          have heq : apply_ev (run conn.init tr) ev.err_local
              = error_local_cb (run conn.init tr) := rfl
          rw [heq, error_local_cb_eq]
          exact ⟨hh, hi⟩
        | err_remote =>
          have heq : apply_ev (run conn.init tr) ev.err_remote
              = error_remote_cb (run conn.init tr) := rfl
          rw [heq, error_remote_cb_eq]
          exact ⟨hh, hi⟩
      · rw [step, if_neg hen]
        exact ⟨hh, hi⟩

/-- Witness for C7 at a successful concrete resolution. -/
theorem address_resolved_sets_hosts_witness :
    ((0 : Int) ≠ DNS_ERR_CANCEL)
  ∧ (address_resolved conn.init 0 2 (some [sample_host])).state
      = C_LOCAL_CONNECTING :=
  ⟨by decide,
   (address_resolved_sets_hosts conn.init 0 2 (some [sample_host])
     (by decide)).1⟩

/-- C8: registering a connection at the head of the registry and then
unregistering it restores the registry exactly and frees exactly that
connection; delete_conn on an absent connection is a no-op that frees
nothing, so a second delete_conn with the same connection does not
double-free; deletion preserves the relative order (sublist) and the
occurrence count of every other connection; and registering a fresh
connection keeps the registry duplicate-free, so a connection appears
at most once from creation to destruction. -/
theorem registry_register_unregister (l : List Nat) (c : Nat)
    (hc : c ∉ l) (hnd : l.Nodup) :
    delete_conn (register l c) c = (l, [c])
  ∧ delete_conn l c = (l, [])
  ∧ (delete_conn (delete_conn (register l c) c).1 c).2 = []
  ∧ (∀ lr : List Nat, (delete_conn lr c).1.Sublist lr)
  ∧ (∀ (lr : List Nat) (d : Nat), d ≠ c →
       (delete_conn lr c).1.count d = lr.count d)
  ∧ (register l c).Nodup := by
  have h1 : delete_conn (register l c) c = (l, [c]) := by
    simp [register, delete_conn]
  refine ⟨h1, delete_conn_not_mem l c hc, ?_,
    fun lr => delete_conn_sublist lr c,
    fun lr d hd => delete_conn_count lr c d hd,
    List.nodup_cons.mpr ⟨hc, hnd⟩⟩
  rw [h1, delete_conn_not_mem l c hc]

/-- Witness for C8 on a concrete registry. -/
theorem registry_register_unregister_witness :
    ((3 : Nat) ∉ [5, 7] ∧ ([5, 7] : List Nat).Nodup)
  ∧ delete_conn (register [5, 7] 3) 3 = ([5, 7], [3]) :=
  ⟨⟨by decide, by decide⟩,
   (registry_register_unregister [5, 7] 3 (by decide) (by decide)).1⟩

/-- C9: under the polling strategy check_parent runs every 5 seconds;
whenever the current parent PID differs from the PID recorded at
startup it breaks the event loop (after which the process exits) and
puts every registered connection into C_SHUTTINGDOWN, disabling reads
and flushing writes on each remote transport, while every local
transport and every local write log is left completely untouched
(close_connections is called with flush_local false); when the PID
matches, nothing changes. -/
theorem check_parent_policy (parent_pid ppid_now : Int) (cs : List conn)
    (h : ppid_now ≠ parent_pid) :
    parent_timeout_sec = 5
  ∧ (check_parent parent_pid ppid_now cs).2 = true
  ∧ (check_parent parent_pid ppid_now cs).1
      = cs.map (close_connection_update false)
  ∧ (∀ c ∈ cs,
       (close_connection_update false c).state = C_SHUTTINGDOWN
     ∧ (close_connection_update false c).local_bev = c.local_bev
     ∧ (close_connection_update false c).local_wlog = c.local_wlog
     ∧ ∀ t, c.remote_bev = some t →
         (close_connection_update false c).remote_bev
           = some { t with read_enabled := false, flushed := true })
  ∧ (∀ p : Int, check_parent p p cs = (cs, false)) := by
  refine ⟨rfl, ?_, ?_, ?_, ?_⟩
  · simp [check_parent, h]
  · simp [check_parent, h, close_connections]
  · intro c _
    refine ⟨rfl, rfl, rfl, ?_⟩
    intro t ht
    simp [close_connection_update, ht]
  · intro p
    simp [check_parent]

/-- Witness for C9 on a concrete mismatching parent PID. -/
theorem check_parent_policy_witness :
    ((11 : Int) ≠ 10)
  ∧ (check_parent 10 11 [conn.init]).2 = true :=
  ⟨by decide, (check_parent_policy 10 11 [conn.init] (by decide)).2.1⟩

/-- C10: evdns_getnameinfo returns NULL (issues no request and never
invokes the completion callback) for every address family other than
AF_INET and AF_INET6; consequently a connection whose remote family is
unknown reaches C_HOSTNAME_LOOKUP with resolver_req NULL, never has a
resolver request outstanding or issued, never gets a local transport,
and never advances to C_LOCAL_CONNECTING or C_ESTABLISHED; with no
request outstanding, a resolver-completion event is not deliverable at
all. -/
theorem unknown_family_no_resolver (n : Int) (tr : List ev) :
    evdns_getnameinfo (addr_family.af_other n) = false
  ∧ ((run conn.init tr).remote_addrfam = addr_family.af_other n →
       (run conn.init tr).resolver_req = false
     ∧ (run conn.init tr).ever_resolver_req = false
     ∧ (run conn.init tr).ever_local_bev = false
     ∧ (run conn.init tr).local_bev = none
     ∧ (run conn.init tr).state ≠ C_LOCAL_CONNECTING
     ∧ (run conn.init tr).state ≠ C_ESTABLISHED
     ∧ (run conn.init tr).ever_established = false)
  ∧ (∀ r t2 a, (run conn.init tr).resolver_req = false →
       step (run conn.init tr) (ev.resolved r t2 a) = run conn.init tr) := by
  refine ⟨rfl, ?_, ?_⟩
  · intro hfam
    exact (winv_run tr).w11 n hfam
  · intro r t2 a hres
    have hen : enabled (run conn.init tr) (ev.resolved r t2 a) = false := by
      simp [enabled, hres]
    rw [step, hen]
    simp

/-- Witness for C10 at a concrete unknown-family trace. -/
theorem unknown_family_no_resolver_witness :
    (run conn.init tr_other).remote_addrfam = addr_family.af_other 7
  ∧ ((run conn.init tr_other).resolver_req = false
     ∧ (run conn.init tr_other).ever_resolver_req = false
     ∧ (run conn.init tr_other).ever_local_bev = false
     ∧ (run conn.init tr_other).local_bev = none
     ∧ (run conn.init tr_other).state ≠ C_LOCAL_CONNECTING
     ∧ (run conn.init tr_other).state ≠ C_ESTABLISHED
     ∧ (run conn.init tr_other).ever_established = false) :=
  ⟨by decide, (unknown_family_no_resolver 7 tr_other).2.1 (by decide)⟩

end SslSlave
